import Mathlib

/-!
Verification of the fitness-dashboard backend/frontend data pipeline.

The development shallowly embeds the data-reshaping code of the repository:
the Notion property extractors and record mappers of the Express server
(`server.js`), its route handlers' status/fallback logic, and the client-side
aggregation functions of `App.tsx` (daily meal rollup, exercise progression
grouping, bulk-progress pace classification, roadmap milestone slicing).

Modelling conventions:
* JavaScript numbers are modelled as rationals (`ℚ`); `Number(x.toFixed(1))`
  is modelled as rounding to the nearest tenth (JS rounds ties away from
  zero, the model rounds ties up; the two agree on non-negative inputs,
  which is the only regime the mapped code reaches a tie in).
* JavaScript strings are compared code-unit-wise; `lexLt` below is that
  comparison on the underlying character lists.  `localeCompare` is used by
  the source only on ISO date strings, where locale order coincides with
  code-unit order.
* `Array.prototype.sort` is a stable sort; it is modelled by the structural
  stable sort `List.insertionSort`.
* A JS object used as a string-keyed map is modelled as an association list
  in key-insertion order; `Object.values` is the list of range values in
  that order.
* `undefined`/`null` are modelled by `Option`; a property access chain like
  `prop?.date?.start || ""` collapses a missing object and a missing field
  into the same `none`.
* Route handlers are modelled as pure functions of their configuration, the
  current timestamp, and the outcome of the upstream Notion call; a thrown
  exception carries `some msg` when it is an `Error` with message `msg` and
  `none` when a non-`Error` value is thrown.
-/

/-- Lexicographic strict order on character lists: the model of JavaScript
string `<` (code-unit comparison). -/
def lexLt : List Char → List Char → Bool
  | _, [] => false
  | [], _ :: _ => true
  | a :: as, b :: bs => if a < b then true else if b < a then false else lexLt as bs

/-- JavaScript string `a < b`. -/
def jsLt (a b : String) : Bool := lexLt a.data b.data

/-- JavaScript string `a <= b` (equivalently, the comparison used when the
source tests `x >= y` or sorts ascending with `localeCompare`). -/
def jsLe (a b : String) : Bool := !(jsLt b a)

theorem lexLt_nil_right (l : List Char) : lexLt l [] = false := by
  cases l <;> rfl

theorem lexLt_irrefl (l : List Char) : lexLt l l = false := by
  induction l with
  | nil => rfl
  | cons a as ih => simp [lexLt, ih]

theorem lexLt_asymm {l₁ l₂ : List Char} (h : lexLt l₁ l₂ = true) :
    lexLt l₂ l₁ = false := by
  induction l₁ generalizing l₂ with
  | nil =>
    cases l₂ with
    | nil => simp [lexLt] at h
    | cons b bs => simp [lexLt_nil_right]
  | cons a as ih =>
    cases l₂ with
    | nil => simp [lexLt_nil_right] at h
    | cons b bs =>
      simp only [lexLt] at h ⊢
      rcases lt_trichotomy a b with hab | hab | hab
      · simp [hab, hab.not_lt]
      · subst hab
        simp only [lt_irrefl, if_false] at h ⊢
        exact ih h
      · simp [hab, hab.not_lt] at h

theorem lexLt_trans {l₁ l₂ l₃ : List Char} (h₁ : lexLt l₁ l₂ = true)
    (h₂ : lexLt l₂ l₃ = true) : lexLt l₁ l₃ = true := by
  induction l₁ generalizing l₂ l₃ with
  | nil =>
    cases l₃ with
    | nil => simp [lexLt_nil_right] at h₂
    | cons c cs => simp [lexLt]
  | cons a as ih =>
    cases l₂ with
    | nil => simp [lexLt_nil_right] at h₁
    | cons b bs =>
      cases l₃ with
      | nil => simp [lexLt_nil_right] at h₂
      | cons c cs =>
        simp only [lexLt] at h₁ h₂ ⊢
        rcases lt_trichotomy a b with hab | hab | hab
        · rcases lt_trichotomy b c with hbc | hbc | hbc
          · simp [lt_trans hab hbc, (lt_trans hab hbc).not_lt]
          · subst hbc; simp [hab, hab.not_lt]
          · simp [hbc, hbc.not_lt] at h₂
        · subst hab
          simp only [lt_irrefl, if_false] at h₁
          rcases lt_trichotomy a c with hac | hac | hac
          · simp [hac, hac.not_lt]
          · subst hac
            simp only [lt_irrefl, if_false] at h₂ ⊢
            exact ih h₁ h₂
          · simp [hac, hac.not_lt] at h₂
        · simp [hab, hab.not_lt] at h₁

theorem lexLt_antisymm {l₁ l₂ : List Char} (h₁ : lexLt l₁ l₂ = false)
    (h₂ : lexLt l₂ l₁ = false) : l₁ = l₂ := by
  induction l₁ generalizing l₂ with
  | nil =>
    cases l₂ with
    | nil => rfl
    | cons b bs => simp [lexLt] at h₁
  | cons a as ih =>
    cases l₂ with
    | nil => simp [lexLt] at h₂
    | cons b bs =>
      simp only [lexLt] at h₁ h₂
      rcases lt_trichotomy a b with hab | hab | hab
      · simp [hab] at h₁
      · subst hab
        simp only [lt_irrefl, if_false] at h₁ h₂
        exact congrArg (a :: ·) (ih h₁ h₂)
      · simp [hab, hab.not_lt] at h₂

theorem jsLe_total (a b : String) : jsLe a b = true ∨ jsLe b a = true := by
  unfold jsLe jsLt
  cases h : lexLt b.data a.data with
  | false => left; simp [h]
  | true => right; simp [lexLt_asymm h]

theorem jsLe_trans {a b c : String} (h₁ : jsLe a b = true)
    (h₂ : jsLe b c = true) : jsLe a c = true := by
  unfold jsLe jsLt at h₁ h₂ ⊢
  simp only [Bool.not_eq_true'] at h₁ h₂ ⊢
  cases hab : lexLt a.data b.data with
  | false =>
    have : a.data = b.data := lexLt_antisymm hab h₁
    rw [← this] at h₂; exact h₂
  | true =>
    cases hbc : lexLt b.data c.data with
    | false =>
      have : b.data = c.data := lexLt_antisymm hbc h₂
      rw [this] at h₁; exact h₁
    | true => exact lexLt_asymm (lexLt_trans hab hbc)

theorem jsLt_of_jsLe_of_ne {a b : String} (h : jsLe a b = true) (hne : a ≠ b) :
    jsLt a b = true := by
  unfold jsLe at h
  unfold jsLt at h ⊢
  simp only [Bool.not_eq_true'] at h
  cases h' : lexLt a.data b.data with
  | false => exact absurd (String.ext (lexLt_antisymm h' h)) hne
  | true => rfl

theorem jsLe_refl (a : String) : jsLe a a = true := by
  unfold jsLe jsLt
  simp [lexLt_irrefl]

/-! ## Notion property model and extractors (server.js lines 32-42) -/

/-- One fragment of a Notion rich-text / title array: `{ plain_text: ... }`.
`none` models a fragment whose `plain_text` is absent (`|| ""` in source). -/
structure RichTextItem where
  plain_text : Option String
deriving DecidableEq

/-- A Notion property value as the source duck-types it: each field models the
correspondingly named JS field, `none` standing for `undefined`.  `date`
models `prop.date?.start` (a missing `date` object and a missing `start`
collapse to `none`); `select` models `prop.select?.name` likewise. -/
structure NotionProp where
  title : Option (List RichTextItem) := none
  rich_text : Option (List RichTextItem) := none
  number : Option ℚ := none
  date : Option String := none
  select : Option String := none
deriving DecidableEq

/-- `textArrayToString`: join the fragments' `plain_text` (defaulting each to
`""`) and trim; a non-array input yields `""`. -/
def textArrayToString : Option (List RichTextItem) → String
  | none => ""
  | some xs => (String.join (xs.map (fun v => v.plain_text.getD ""))).trim

/-- `propTitle(prop)`. -/
def propTitle (p : Option NotionProp) : String :=
  textArrayToString (p.bind (fun q => q.title))

/-- `propRichText(prop)`. -/
def propRichText (p : Option NotionProp) : String :=
  textArrayToString (p.bind (fun q => q.rich_text))

/-- `propNumber(prop)`: the numeric value when it is of number type, else 0. -/
def propNumber (p : Option NotionProp) : ℚ :=
  (p.bind (fun q => q.number)).getD 0

/-- `propDate(prop)`: `prop?.date?.start || ""`. -/
def propDate (p : Option NotionProp) : String :=
  (p.bind (fun q => q.date)).getD ""

/-- `propSelect(prop)`: `prop?.select?.name || ""`. -/
def propSelect (p : Option NotionProp) : String :=
  (p.bind (fun q => q.select)).getD ""

/-- `firstExisting(props, keys)`: the value of the first key defined in the
property map, `none` (undefined) when no key is.  The property map is the
association list of defined keys in insertion order. -/
def firstExisting (props : List (String × NotionProp)) (keys : List String) :
    Option NotionProp :=
  keys.findSome? (fun k => props.lookup k)

/-- JS `s || d` for strings: `d` when `s` is the empty string. -/
def jsStrOr (s d : String) : String := if s = "" then d else s

/-- JS `q || null` for numbers: `null` when the number is falsy (0). -/
def numOrNull (q : ℚ) : Option ℚ := if q = 0 then none else some q

/-- JS `s || null` for strings: `null` when the string is empty. -/
def strOrNull (s : String) : Option String := if s = "" then none else some s

/-- JS `!x` for an optional string (`undefined`, `null` or `""` are falsy). -/
def jsFalsyStr : Option String → Bool
  | none => true
  | some s => s == ""

/-- `Number(x.toFixed(1))`: round to one decimal place. -/
def jsToFixed1 (q : ℚ) : ℚ := (round (q * 10) : ℤ) / 10

/-! ## Record mappers (server.js lines 60-103) -/

/-- Canonical meal record produced by the meals mapper. -/
structure MealEntry where
  food : String
  date : String
  meal : String
  calories : ℚ
  protein : ℚ
  carbs : Option ℚ
  fat : Option ℚ
  source : String
deriving DecidableEq

/-- The meals mapper (server.js lines 60-72), as a function of the record's
property map. -/
def mapMeal (p : List (String × NotionProp)) : MealEntry :=
  { food := propTitle (firstExisting p ["Food", "Name", "Meal", "Title"])
    date := propDate (firstExisting p ["Date", "Log Date"])
    meal := propSelect (firstExisting p ["Meal", "Meal Type"])
    calories := propNumber (firstExisting p ["Calories", "kcal"])
    protein := propNumber (firstExisting p ["Protein", "Protein (g)"])
    carbs := numOrNull (propNumber (firstExisting p ["Carbs", "Carbs (g)"]))
    fat := numOrNull (propNumber (firstExisting p ["Fat", "Fat (g)"]))
    source := jsStrOr (propSelect (firstExisting p ["Source", "Type"])) "Other" }

/-- Canonical body-composition record. -/
structure BodyCompEntry where
  date : String
  weight : ℚ
  bodyFat : ℚ
  muscleMass : ℚ
  leanMass : Option ℚ
  bmi : Option ℚ
  bmr : Option ℚ
  notes : Option String
deriving DecidableEq

/-- The raw body-fat number extracted by the body-composition mapper
(server.js line 76). -/
def rawBodyFat (p : List (String × NotionProp)) : ℚ :=
  propNumber (firstExisting p ["Body Fat", "Body Fat %"])

/-- The body-composition mapper (server.js lines 74-88).  Note the body-fat
normalization: `raw > 0 && raw <= 1 ? Number((raw * 100).toFixed(1)) : raw`. -/
def mapBodyComp (p : List (String × NotionProp)) : BodyCompEntry :=
  { date := propDate (firstExisting p ["Date", "Log Date"])
    weight := propNumber (firstExisting p ["Weight", "Weight (lbs)"])
    bodyFat :=
      if 0 < rawBodyFat p ∧ rawBodyFat p ≤ 1 then jsToFixed1 (rawBodyFat p * 100)
      else rawBodyFat p
    muscleMass := propNumber (firstExisting p ["Muscle Mass (lbs)", "Muscle Mass", "Muscle (lbs)"])
    leanMass := numOrNull (propNumber (firstExisting p ["Lean Mass (lbs)", "Lean Mass", "Lean (lbs)"]))
    bmi := numOrNull (propNumber (firstExisting p ["BMI"]))
    bmr := numOrNull (propNumber (firstExisting p ["BMR", "BMR (kcal)"]))
    notes := strOrNull (propRichText (firstExisting p ["Notes"])) }

/-- The `reps` field is a string-or-number union in the source. -/
inductive Reps where
  | text (s : String)
  | num (q : ℚ)
deriving DecidableEq, Inhabited

/-- Canonical training record. -/
structure TrainingEntry where
  exercise : String
  date : String
  weight : ℚ
  sets : ℚ
  reps : Reps
  workoutType : String
  notes : Option String
deriving DecidableEq, Inhabited

/-- The training mapper (server.js lines 90-103): `reps` is textual first,
then numeric, then the literal `"Unknown"`; `exercise` falls back from the
select field to the title field. -/
def mapTraining (p : List (String × NotionProp)) : TrainingEntry :=
  let repsText := propRichText (firstExisting p ["Actual Reps", "Target Reps", "Reps"])
  let repsNum := propNumber (firstExisting p ["Actual Reps", "Reps"])
  { exercise := jsStrOr (propSelect (firstExisting p ["Exercise"]))
      (propTitle (firstExisting p ["Name", "Title"]))
    date := propDate (firstExisting p ["Date", "Log Date"])
    weight := propNumber (firstExisting p ["Weight (lbs)", "Weight"])
    sets := propNumber (firstExisting p ["Sets"])
    reps :=
      if repsText ≠ "" then Reps.text repsText
      else if repsNum ≠ 0 then Reps.num repsNum
      else Reps.text "Unknown"
    workoutType := propSelect (firstExisting p ["Workout", "Workout Type", "Type"])
    notes := strOrNull (propRichText (firstExisting p ["Notes"])) }

/-- A raw Notion row: `r.properties` may be absent (`r.properties || {}`). -/
structure RawRow where
  properties : Option (List (String × NotionProp))
deriving DecidableEq

/-- `r.properties || {}`. -/
def rowProps (r : RawRow) : List (String × NotionProp) := r.properties.getD []

/-- Outcome of an awaited upstream Notion call: success with a payload, or a
thrown exception (`some msg` for an `Error` with message `msg`, `none` for a
non-`Error` throw). -/
inductive Upstream (α : Type) where
  | ok (val : α)
  | fail (msg : Option String)

/-! ## `/api/dashboard` handler (server.js lines 44-112) -/

/-- The JSON body of `/api/dashboard` responses. -/
structure DashboardBody where
  meals : List MealEntry
  bodyComp : List BodyCompEntry
  training : List TrainingEntry
  updatedAt : String
  error : Option String
deriving DecidableEq

/-- The configuration-error message of the dashboard handler. -/
def dashboardConfigError : String :=
  "Missing Notion env vars. Set NOTION_TOKEN, NOTION_DB_MEALS, NOTION_DB_BODYCOMP, NOTION_DB_TRAINING in .env"

/-- The `/api/dashboard` handler as a function of the configuration (token and
the three normalized data-source ids), the current timestamp, and the outcome
of the three parallel upstream queries.  Returns (HTTP status, body). -/
def dashboardHandler (token : Option String) (dbMeals dbBodyComp dbTraining : String)
    (now : String) (upstream : Upstream (List RawRow × List RawRow × List RawRow)) :
    Nat × DashboardBody :=
  if jsFalsyStr token || dbMeals == "" || dbBodyComp == "" || dbTraining == "" then
    (400, ⟨[], [], [], now, some dashboardConfigError⟩)
  else
    match upstream with
    | Upstream.ok (mealsRes, bodyRes, trainRes) =>
        (200, ⟨mealsRes.map (fun r => mapMeal (rowProps r)),
               bodyRes.map (fun r => mapBodyComp (rowProps r)),
               trainRes.map (fun r => mapTraining (rowProps r)),
               now, none⟩)
    | Upstream.fail m => (500, ⟨[], [], [], now, some (m.getD "Unknown server error")⟩)

/-! ## `/api/looksmaxx` handler (server.js lines 155-196) -/

/-- One `latestDaily` sample. -/
structure DailySample where
  title : String
  date : String
deriving DecidableEq

/-- One `latestGoals` sample. -/
structure GoalSample where
  title : String
  status : String
deriving DecidableEq

/-- The JSON body of `/api/looksmaxx` responses. -/
structure LooksBody where
  updatedAt : String
  dailyCount : Nat
  fitnessCount : Nat
  productsCount : Nat
  goalsCount : Nat
  latestDaily : List DailySample
  latestGoals : List GoalSample
  error : Option String
deriving DecidableEq

/-- The zeroed looksmaxx fallback payload, with an optional `error` field
(the bare fallback carries none). -/
def looksFallback (now : String) (e : Option String) : LooksBody :=
  ⟨now, 0, 0, 0, 0, [], [], e⟩

/-- `mapTitle` of the looksmaxx handler. -/
def lmTitle (props : List (String × NotionProp)) : String :=
  jsStrOr (propTitle (firstExisting props ["Name", "Title", "Goal", "Entry", "Task"])) "Untitled"

/-- `mapDate` of the looksmaxx handler (`|| ""` is the identity here since
`propDate` already defaults to `""`). -/
def lmDate (props : List (String × NotionProp)) : String :=
  propDate (firstExisting props ["Date", "Created", "When", "Log Date"])

/-- `mapStatus` of the looksmaxx handler. -/
def lmStatus (props : List (String × NotionProp)) : String :=
  let p := firstExisting props ["Status", "State", "Progress"]
  jsStrOr (propSelect p) (propRichText p)

/-- The `/api/looksmaxx` handler: always HTTP 200; bare fallback when the
token is falsy; fallback plus `error` field when the upstream call throws. -/
def looksmaxxHandler (token : Option String) (now : String)
    (upstream : Upstream (List RawRow × List RawRow × List RawRow × List RawRow)) :
    Nat × LooksBody :=
  if jsFalsyStr token then (200, looksFallback now none)
  else
    match upstream with
    | Upstream.ok (dailyRes, fitnessRes, productsRes, goalsRes) =>
        (200, ⟨now, dailyRes.length, fitnessRes.length, productsRes.length, goalsRes.length,
               (dailyRes.take 5).map (fun r => ⟨lmTitle (rowProps r), lmDate (rowProps r)⟩),
               (goalsRes.take 5).map (fun r => ⟨lmTitle (rowProps r), lmStatus (rowProps r)⟩),
               none⟩)
    | Upstream.fail m => (200, looksFallback now (some (m.getD "looksmaxx_error")))

/-! ## `/api/roadmap` handler (server.js lines 199-233) -/

/-- Canonical roadmap item. -/
structure RoadmapItem where
  milestone : String
  phase : String
  type : String
  date : String
  notes : String
  targetWeight : ℚ
  targetBodyFat : ℚ
  targetMuscle : ℚ
deriving DecidableEq

/-- The roadmap row mapper (server.js lines 206-216). -/
def mapRoadmap (p : List (String × NotionProp)) : RoadmapItem :=
  { milestone := jsStrOr (propTitle (firstExisting p ["Milestone", "Name", "Title"])) "Untitled"
    phase := propSelect (firstExisting p ["Phase"])
    type := propSelect (firstExisting p ["Type"])
    date := propDate (firstExisting p ["Date"])
    notes := propRichText (firstExisting p ["Notes"])
    targetWeight := propNumber (firstExisting p ["Target Weight"])
    targetBodyFat := propNumber (firstExisting p ["Target BF%", "Target BF"])
    targetMuscle := propNumber (firstExisting p ["Target Muscle"]) }

/-- The ascending-by-date-string order used by `.sort((a,b) =>
(a.date||'').localeCompare(b.date||''))`; `a.date || ''` is the identity since
mapped dates already default to `""`. -/
def itemLe (a b : RoadmapItem) : Prop := jsLe a.date b.date = true

instance : DecidableRel itemLe :=
  fun a b => inferInstanceAs (Decidable (jsLe a.date b.date = true))

instance : IsTotal RoadmapItem itemLe := ⟨fun a b => jsLe_total a.date b.date⟩

instance : IsTrans RoadmapItem itemLe := ⟨fun _ _ _ => jsLe_trans⟩

/-- The mapped, date-ascending roadmap item collection. -/
def roadmapItems (rows : List RawRow) : List RoadmapItem :=
  List.insertionSort itemLe (rows.map (fun r => mapRoadmap (rowProps r)))

/-- The projection kept in the `nextMilestones` slice. -/
structure MilestoneSlice where
  milestone : String
  date : String
  phase : String
deriving DecidableEq

/-- The filter of the `nextMilestones` slice: `!i.date || i.date >= today`. -/
def milestoneKeep (today : String) (i : RoadmapItem) : Bool :=
  i.date == "" || jsLe today i.date

/-- `nextMilestones` (server.js line 227): qualifying items of the sorted
collection, first 8, projected to (milestone, date, phase). -/
def nextMilestones (rows : List RawRow) (today : String) : List MilestoneSlice :=
  (((roadmapItems rows).filter (milestoneKeep today)).take 8).map
    (fun i => ⟨i.milestone, i.date, i.phase⟩)

/-! ## Daily meal rollup (App.tsx lines 585-599) -/

/-- One row of the daily rollup.  The presentation-only `label` field
(`toLocaleDateString` of the date at noon) is not modelled. -/
structure DailyRow where
  date : String
  calories : ℚ
  protein : ℚ
deriving DecidableEq

/-- Update the string-keyed accumulator object `byDate` with one meal: bump
the existing row for the meal's date, or append a fresh row (JS object keys
keep insertion order; date keys are unique by construction). -/
def bump (m : MealEntry) : List DailyRow → List DailyRow
  | [] => [⟨m.date, m.calories, m.protein⟩]
  | r :: rs =>
      if r.date = m.date then
        ⟨r.date, r.calories + m.calories, r.protein + m.protein⟩ :: rs
      else r :: bump m rs

/-- One `meals.forEach` step of the rollup: entries with an empty date are
skipped (`if (!m.date) return`). -/
def addMeal (acc : List DailyRow) (m : MealEntry) : List DailyRow :=
  if m.date = "" then acc else bump m acc

/-- The ascending-by-date order of the final `.sort((a, b) =>
a.date.localeCompare(b.date))`. -/
def rowLe (a b : DailyRow) : Prop := jsLe a.date b.date = true

instance : DecidableRel rowLe :=
  fun a b => inferInstanceAs (Decidable (jsLe a.date b.date = true))

instance : IsTotal DailyRow rowLe := ⟨fun a b => jsLe_total a.date b.date⟩

instance : IsTrans DailyRow rowLe := ⟨fun _ _ _ => jsLe_trans⟩

/-- `dailyData`: accumulate all meals into the by-date object, then sort the
values ascending by date string. -/
def dailyData (meals : List MealEntry) : List DailyRow :=
  List.insertionSort rowLe (meals.foldl addMeal [])

/-- Total calories of the meal entries carrying date `d`. -/
def calSum (d : String) (meals : List MealEntry) : ℚ :=
  ((meals.filter (fun m => m.date == d)).map (fun m => m.calories)).sum

/-- Total protein of the meal entries carrying date `d`. -/
def proSum (d : String) (meals : List MealEntry) : ℚ :=
  ((meals.filter (fun m => m.date == d)).map (fun m => m.protein)).sum

/-- Total calories of the rollup rows carrying date `d`. -/
def rowCal (d : String) (rows : List DailyRow) : ℚ :=
  ((rows.filter (fun r => r.date == d)).map (fun r => r.calories)).sum

/-! ## Exercise progression grouping (App.tsx lines 634-644) -/

/-- One exercise progression summary. -/
structure ExerciseProgression where
  name : String
  latest : TrainingEntry
  first : TrainingEntry
  sessions : Nat
deriving DecidableEq

/-- Push a training entry onto its exercise's group in the string-keyed
accumulator object `byEx` (insertion order of first occurrence). -/
def pushEntry (e : TrainingEntry) :
    List (String × List TrainingEntry) → List (String × List TrainingEntry)
  | [] => [(e.exercise, [e])]
  | g :: gs => if g.1 = e.exercise then (g.1, g.2 ++ [e]) :: gs else g :: pushEntry e gs

/-- One `training.forEach` step: entries with an empty exercise name are
skipped (`if (!e.exercise) return`). -/
def addTraining (acc : List (String × List TrainingEntry)) (e : TrainingEntry) :
    List (String × List TrainingEntry) :=
  if e.exercise = "" then acc else pushEntry e acc

/-- The ascending-by-date order used inside each exercise group. -/
def trainLe (a b : TrainingEntry) : Prop := jsLe a.date b.date = true

instance : DecidableRel trainLe :=
  fun a b => inferInstanceAs (Decidable (jsLe a.date b.date = true))

instance : IsTotal TrainingEntry trainLe := ⟨fun a b => jsLe_total a.date b.date⟩

instance : IsTrans TrainingEntry trainLe := ⟨fun _ _ _ => jsLe_trans⟩

/-- `exercises`: group training entries by exercise name, sort each group
ascending by date, and summarize name / latest / first / session count. -/
def exercisesOf (tr : List TrainingEntry) : List ExerciseProgression :=
  (tr.foldl addTraining []).map (fun g =>
    let sorted := List.insertionSort trainLe g.2
    { name := g.1
      latest := sorted.getLast?.getD default
      first := sorted.head?.getD default
      sessions := sorted.length })

/-! ## Bulk progress pace (App.tsx lines 344-364) -/

/-- The three pace labels of the bulk-progress tracker. -/
inductive Pace where
  | ahead
  | onTrack
  | behind
deriving DecidableEq

/-- `BULK_START_WEIGHT` (App.tsx line 49). -/
def BULK_START_WEIGHT : ℚ := 161

/-- `BULK_TARGET_WEIGHT` (App.tsx line 50). -/
def BULK_TARGET_WEIGHT : ℚ := 170

/-- `Math.min(Math.max(x, 0), 1)`. -/
def clamp01 (x : ℚ) : ℚ := min (max x 0) 1

/-- The completion fraction `pct` (App.tsx lines 349-351), as a function of
the current weight. -/
def bulkPct (currentWeight : ℚ) : ℚ :=
  clamp01 ((currentWeight - BULK_START_WEIGHT) / (BULK_TARGET_WEIGHT - BULK_START_WEIGHT))

/-- The pace classifier (App.tsx lines 361-364): `ahead` when
`pct > timePct + 0.1`, else `behind` when `pct < timePct - 0.15`, else on
track.  `0.1` and `0.15` are written as the exact rationals they denote. -/
def paceOf (pct timePct : ℚ) : Pace :=
  if pct > timePct + 1/10 then Pace.ahead
  else if pct < timePct - 3/20 then Pace.behind
  else Pace.onTrack

/-! ## Refresh snapshot (memoized aggregations of App.tsx) -/

/-- The state the presentation shell owns: the fetched input collections and
the derived aggregates. -/
structure Snapshot where
  meals : List MealEntry
  training : List TrainingEntry
  daily : List DailyRow
  exercises : List ExerciseProgression

/-- One aggregation refresh: recompute every derived collection from the
input collections, leaving the inputs untouched. -/
def refreshAggregates (s : Snapshot) : Snapshot :=
  { meals := s.meals
    training := s.training
    daily := dailyData s.meals
    exercises := exercisesOf s.training }

/-! ## Rollup lemmas -/

theorem rowCal_nil (d : String) : rowCal d [] = 0 := rfl

theorem rowCal_cons (d : String) (r : DailyRow) (rs : List DailyRow) :
    rowCal d (r :: rs) = (if r.date = d then r.calories else 0) + rowCal d rs := by
  by_cases h : r.date = d <;> simp [rowCal, List.filter_cons, h]

theorem calSum_nil (d : String) : calSum d [] = 0 := rfl

theorem calSum_cons (d : String) (m : MealEntry) (ms : List MealEntry) :
    calSum d (m :: ms) = (if m.date = d then m.calories else 0) + calSum d ms := by
  by_cases h : m.date = d <;> simp [calSum, List.filter_cons, h]

theorem bump_dates (m : MealEntry) (acc : List DailyRow) :
    (bump m acc).map (fun r => r.date) =
      if m.date ∈ acc.map (fun r => r.date) then acc.map (fun r => r.date)
      else acc.map (fun r => r.date) ++ [m.date] := by
  induction acc with
  | nil => simp [bump]
  | cons r rs ih =>
    by_cases h : r.date = m.date
    · simp [bump, h]
    · have hne : m.date ≠ r.date := fun he => h he.symm
      by_cases hmem : m.date ∈ rs.map (fun r => r.date)
      · simp [bump, h, ih, hmem, hne]
      · simp [bump, h, ih, hmem, hne]

theorem bump_rowCal (d : String) (m : MealEntry) (acc : List DailyRow) :
    rowCal d (bump m acc) = rowCal d acc + (if m.date = d then m.calories else 0) := by
  induction acc with
  | nil =>
    by_cases h : m.date = d <;> simp [bump, rowCal_cons, rowCal_nil, h]
  | cons r rs ih =>
    by_cases h : r.date = m.date
    · by_cases hd : r.date = d
      · have hmd : m.date = d := h ▸ hd
        simp only [bump, if_pos h, rowCal_cons, if_pos hd]
        rw [if_pos hmd]
        ring
      · have hmd : ¬ m.date = d := fun he => hd (h.trans he)
        simp [bump, h, rowCal_cons, hd, hmd]
    · simp only [bump, if_neg h, rowCal_cons, ih]
      ring

theorem foldl_addMeal_dates_mem (meals : List MealEntry) (acc : List DailyRow)
    (d : String) :
    d ∈ (meals.foldl addMeal acc).map (fun r => r.date) ↔
      d ∈ acc.map (fun r => r.date) ∨ (d ≠ "" ∧ d ∈ meals.map (fun m => m.date)) := by
  induction meals generalizing acc with
  | nil => simp
  | cons m ms ih =>
    rw [List.foldl_cons, ih]
    by_cases hm : m.date = ""
    · have hd : d ∈ (m :: ms).map (fun m => m.date) ↔ (d = m.date ∨ d ∈ ms.map (fun m => m.date)) := by
        simp
      rw [hd]
      simp only [addMeal, if_pos hm]
      constructor
      · rintro (h | ⟨hne, h⟩)
        · exact Or.inl h
        · exact Or.inr ⟨hne, Or.inr h⟩
      · rintro (h | ⟨hne, h | h⟩)
        · exact Or.inl h
        · exact absurd (h ▸ hm) hne
        · exact Or.inr ⟨hne, h⟩
    · simp only [addMeal, if_neg hm, bump_dates]
      by_cases hmem : m.date ∈ acc.map (fun r => r.date)
      · rw [if_pos hmem]
        constructor
        · rintro (h | ⟨hne, h⟩)
          · exact Or.inl h
          · exact Or.inr ⟨hne, by simp [h]⟩
        · rintro (h | ⟨hne, h⟩)
          · exact Or.inl h
          · rcases (by simpa using h : d = m.date ∨ d ∈ ms.map (fun m => m.date)) with h | h
            · exact Or.inl (h ▸ hmem)
            · exact Or.inr ⟨hne, h⟩
      · rw [if_neg hmem]
        constructor
        · rintro (h | ⟨hne, h⟩)
          · rcases List.mem_append.mp h with h | h
            · exact Or.inl h
            · have : d = m.date := by simpa using h
              exact Or.inr ⟨this ▸ hm, by simp [this]⟩
          · exact Or.inr ⟨hne, by simp [h]⟩
        · rintro (h | ⟨hne, h⟩)
          · exact Or.inl (List.mem_append_left _ h)
          · rcases (by simpa using h : d = m.date ∨ d ∈ ms.map (fun m => m.date)) with h | h
            · exact Or.inl (List.mem_append_right _ (by simp [h]))
            · exact Or.inr ⟨hne, h⟩

theorem foldl_addMeal_dates_nodup (meals : List MealEntry) (acc : List DailyRow)
    (hnd : (acc.map (fun r => r.date)).Nodup) :
    ((meals.foldl addMeal acc).map (fun r => r.date)).Nodup := by
  induction meals generalizing acc with
  | nil => exact hnd
  | cons m ms ih =>
    rw [List.foldl_cons]
    refine ih _ ?_
    by_cases hm : m.date = ""
    · rw [addMeal, if_pos hm]; exact hnd
    · rw [addMeal, if_neg hm, bump_dates]
      by_cases hmem : m.date ∈ acc.map (fun r => r.date)
      · rw [if_pos hmem]; exact hnd
      · rw [if_neg hmem, List.nodup_append]
        refine ⟨hnd, List.nodup_singleton _, fun a ha hb => hmem ?_⟩
        have ha' : a = m.date := by simpa using hb
        exact ha' ▸ ha

theorem foldl_addMeal_rowCal (meals : List MealEntry) (acc : List DailyRow)
    (d : String) (hd : d ≠ "") :
    rowCal d (meals.foldl addMeal acc) = rowCal d acc + calSum d meals := by
  induction meals generalizing acc with
  | nil => simp [calSum_nil]
  | cons m ms ih =>
    rw [List.foldl_cons, ih, calSum_cons]
    by_cases hm : m.date = ""
    · have hmd : ¬ m.date = d := fun he => hd (he ▸ hm)
      rw [addMeal, if_pos hm, if_neg hmd]
      ring
    · rw [addMeal, if_neg hm, bump_rowCal]
      ring

theorem foldl_addMeal_filter (meals : List MealEntry) (acc : List DailyRow) :
    meals.foldl addMeal acc = (meals.filter (fun m => !(m.date == ""))).foldl addMeal acc := by
  induction meals generalizing acc with
  | nil => rfl
  | cons m ms ih =>
    by_cases hm : m.date = ""
    · rw [List.foldl_cons, addMeal, if_pos hm, List.filter_cons]
      have hcond : (!(m.date == "")) = false := by simp [hm]
      rw [hcond]
      simpa using ih acc
    · rw [List.foldl_cons, List.filter_cons]
      have hcond : (!(m.date == "")) = true := by simp [hm]
      rw [hcond, if_pos rfl, List.foldl_cons]
      exact ih _

theorem rowCal_perm {l₁ l₂ : List DailyRow} (h : l₁.Perm l₂) (d : String) :
    rowCal d l₁ = rowCal d l₂ :=
  List.Perm.sum_eq (List.Perm.map _ (List.Perm.filter _ h))

theorem rowCal_eq_zero_of_not_mem {d : String} {rows : List DailyRow}
    (h : d ∉ rows.map (fun r => r.date)) : rowCal d rows = 0 := by
  induction rows with
  | nil => rfl
  | cons r rs ih =>
    have h1 : ¬ r.date = d := fun he => h (by simp [he])
    have h2 : d ∉ rs.map (fun r => r.date) := fun hm => h (by simp [hm])
    simp [rowCal_cons, h1, ih h2]

theorem rowCal_eq_of_nodup {rows : List DailyRow} {r : DailyRow}
    (hnd : (rows.map (fun r => r.date)).Nodup) (hr : r ∈ rows) :
    rowCal r.date rows = r.calories := by
  induction rows with
  | nil => cases hr
  | cons x xs ih =>
    have hnd' : (x.date :: xs.map (fun q => q.date)).Nodup := by simpa using hnd
    have hx : x.date ∉ xs.map (fun q => q.date) := (List.nodup_cons.mp hnd').1
    have hxs : (xs.map (fun q => q.date)).Nodup := (List.nodup_cons.mp hnd').2
    rcases List.mem_cons.mp hr with h | h
    · subst h
      simp [rowCal_cons, rowCal_eq_zero_of_not_mem hx]
    · have hne : ¬ x.date = r.date := fun he => hx (he ▸ List.mem_map_of_mem _ h)
      simp [rowCal_cons, hne, ih hxs h]

/-! ## Extraction helper lemmas -/

theorem firstExisting_cons_some {props : List (String × NotionProp)} {k : String}
    {v : NotionProp} (keys : List String) (h : props.lookup k = some v) :
    firstExisting props (k :: keys) = some v := by
  simp [firstExisting, List.findSome?_cons, h]

theorem firstExisting_eq_none {props : List (String × NotionProp)} {keys : List String}
    (h : ∀ k ∈ keys, props.lookup k = none) : firstExisting props keys = none := by
  induction keys with
  | nil => rfl
  | cons a as ih =>
    have ha : props.lookup a = none := h a (by simp)
    simp only [firstExisting, List.findSome?_cons, ha]
    exact ih (fun k hk => h k (List.mem_cons_of_mem _ hk))

theorem numOrNull_eq_none_iff (q : ℚ) : numOrNull q = none ↔ q = 0 := by
  unfold numOrNull
  split <;> simp_all

/-! ## Claim C1 (body-fat normalization) -/

/-- A body-composition record whose raw body-fat number is 15.12 (already a
percentage, with two decimal places). -/
def bfProps0 : List (String × NotionProp) := [("Body Fat", { number := some (1512/100) })]

/-- Claim C1 as stated is false on the code: for a raw body-fat value
greater than 1 the mapper passes the value through unchanged, it does not
round it to 1 decimal place.  With raw = 15.12 the output is 15.12, not
15.1. -/
theorem bodyFat_rounding_counterexample :
    1 < rawBodyFat bfProps0 ∧
    (mapBodyComp bfProps0).bodyFat ≠ jsToFixed1 (rawBodyFat bfProps0) := by
  have hraw : rawBodyFat bfProps0 = 1512/100 := rfl
  have h1 : (1 : ℚ) < 1512/100 := by norm_num
  constructor
  · rw [hraw]; exact h1
  · have hbf : (mapBodyComp bfProps0).bodyFat = rawBodyFat bfProps0 := by
      show (if 0 < rawBodyFat bfProps0 ∧ rawBodyFat bfProps0 ≤ 1
            then jsToFixed1 (rawBodyFat bfProps0 * 100) else rawBodyFat bfProps0) = _
      rw [if_neg]
      rw [hraw]
      rintro ⟨-, hle⟩
      exact absurd h1 (not_lt.mpr hle)
    rw [hbf, hraw]
    unfold jsToFixed1
    have : round ((1512 : ℚ)/100 * 10) = 151 := by norm_num [round_eq]
    rw [this]
    norm_num

/-- Claim C1, amended: for raw r with 0 < r ≤ 1 the output body-fat is
r × 100 rounded to 1 decimal place; for r > 1 the output is r unchanged (not
rounded); for r ≤ 0 the output is r unchanged. -/
theorem bodyFat_normalization (p : List (String × NotionProp)) :
    (0 < rawBodyFat p ∧ rawBodyFat p ≤ 1 →
      (mapBodyComp p).bodyFat = jsToFixed1 (rawBodyFat p * 100)) ∧
    (1 < rawBodyFat p → (mapBodyComp p).bodyFat = rawBodyFat p) ∧
    (rawBodyFat p ≤ 0 → (mapBodyComp p).bodyFat = rawBodyFat p) := by
  refine ⟨fun h => ?_, fun h => ?_, fun h => ?_⟩
  · show (if 0 < rawBodyFat p ∧ rawBodyFat p ≤ 1
          then jsToFixed1 (rawBodyFat p * 100) else rawBodyFat p) = _
    rw [if_pos h]
  · show (if 0 < rawBodyFat p ∧ rawBodyFat p ≤ 1
          then jsToFixed1 (rawBodyFat p * 100) else rawBodyFat p) = _
    rw [if_neg (fun hc => absurd h (not_lt.mpr hc.2))]
  · show (if 0 < rawBodyFat p ∧ rawBodyFat p ≤ 1
          then jsToFixed1 (rawBodyFat p * 100) else rawBodyFat p) = _
    rw [if_neg (fun hc => absurd hc.1 (not_lt.mpr h))]

/-- A body-composition record whose raw body-fat is the fraction 0.5. -/
def bfProps1 : List (String × NotionProp) := [("Body Fat", { number := some (1/2) })]

theorem bodyFat_normalization_witness :
    0 < rawBodyFat bfProps1 ∧ rawBodyFat bfProps1 ≤ 1 ∧
    (mapBodyComp bfProps1).bodyFat = 50 := by
  have hraw : rawBodyFat bfProps1 = 1/2 := rfl
  have h1 : 0 < rawBodyFat bfProps1 := by rw [hraw]; norm_num
  have h2 : rawBodyFat bfProps1 ≤ 1 := by rw [hraw]; norm_num
  refine ⟨h1, h2, ?_⟩
  rw [(bodyFat_normalization bfProps1).1 ⟨h1, h2⟩, hraw]
  unfold jsToFixed1
  have : round ((1 : ℚ)/2 * 100 * 10) = 500 := by norm_num [round_eq]
  rw [this]
  norm_num

/-! ## Claim C2 (daily rollup correctness) -/

/-- Claim C2: for every meal collection, each rollup row's calories is the
sum of the calories of all entries sharing its date, the rollup is strictly
ascending by date string (hence its dates are pairwise distinct), and a date
appears in the rollup exactly when it is a non-empty date of some entry. -/
theorem dailyData_rollup_correct (meals : List MealEntry) :
    (∀ r ∈ dailyData meals, r.calories = calSum r.date meals) ∧
    (dailyData meals).Pairwise (fun a b => jsLt a.date b.date = true) ∧
    ((dailyData meals).map (fun r => r.date)).Nodup ∧
    (∀ d, d ∈ (dailyData meals).map (fun r => r.date) ↔
      (d ≠ "" ∧ d ∈ meals.map (fun m => m.date))) := by
  have hperm : (dailyData meals).Perm (meals.foldl addMeal []) :=
    List.perm_insertionSort rowLe _
  have hmem : ∀ d, d ∈ (dailyData meals).map (fun r => r.date) ↔
      (d ≠ "" ∧ d ∈ meals.map (fun m => m.date)) := by
    intro d
    rw [(hperm.map _).mem_iff, foldl_addMeal_dates_mem]
    simp
  have hnd : ((dailyData meals).map (fun r => r.date)).Nodup :=
    ((hperm.map _).symm).nodup (foldl_addMeal_dates_nodup meals [] (by simp))
  refine ⟨?_, ?_, hnd, hmem⟩
  · intro r hr
    have hrd : r.date ≠ "" := ((hmem r.date).mp (List.mem_map_of_mem _ hr)).1
    have h1 : rowCal r.date (dailyData meals) = r.calories := rowCal_eq_of_nodup hnd hr
    rw [rowCal_perm hperm, foldl_addMeal_rowCal meals [] r.date hrd, rowCal_nil,
      zero_add] at h1
    exact h1.symm
  · have hsorted : (dailyData meals).Pairwise rowLe := List.sorted_insertionSort rowLe _
    have hne : (dailyData meals).Pairwise (fun a b => a.date ≠ b.date) :=
      List.pairwise_map.mp hnd
    exact (hsorted.and hne).imp (fun h => jsLt_of_jsLe_of_ne h.1 h.2)

/-- A small meal collection with two entries on 2026-01-02 and one on
2026-01-01. -/
def meals0 : List MealEntry :=
  [⟨"Oats", "2026-01-02", "Breakfast", 500, 30, none, none, "Other"⟩,
   ⟨"Eggs", "2026-01-01", "Breakfast", 300, 20, none, none, "Other"⟩,
   ⟨"Rice", "2026-01-02", "Lunch", 200, 10, none, none, "Other"⟩]

theorem dailyData_rollup_correct_witness :
    "2026-01-02" ∈ (dailyData meals0).map (fun r => r.date) ∧
    calSum "2026-01-02" meals0 = 700 := by
  constructor
  · exact ((dailyData_rollup_correct meals0).2.2.2 "2026-01-02").mpr (by decide)
  · simp only [calSum, meals0, List.filter_cons, List.filter_nil]
    simp
    norm_num

/-! ## Claim C10 (empty-date meals are excluded from the rollup) -/

/-- Claim C10: meal entries with an empty date are silently excluded from the
daily rollup: every rollup date is non-empty, and the rollup of a collection
equals the rollup of the collection with empty-dated entries filtered out
(so such entries contribute to no row's sums). -/
theorem dailyData_empty_date_excluded (meals : List MealEntry) :
    (∀ d ∈ (dailyData meals).map (fun r => r.date), d ≠ "") ∧
    dailyData meals = dailyData (meals.filter (fun m => !(m.date == ""))) := by
  constructor
  · intro d hd
    have hperm : (dailyData meals).Perm (meals.foldl addMeal []) :=
      List.perm_insertionSort rowLe _
    rw [(hperm.map _).mem_iff, foldl_addMeal_dates_mem] at hd
    simpa using hd.elim (fun h => absurd h (by simp)) (fun h => h.1)
  · unfold dailyData
    rw [foldl_addMeal_filter]

/-- A meal collection containing an entry with an empty date. -/
def mealsE : List MealEntry :=
  [⟨"Snack", "", "Snack", 100, 5, none, none, "Other"⟩,
   ⟨"Eggs", "2026-01-01", "Breakfast", 300, 20, none, none, "Other"⟩]

theorem dailyData_empty_date_excluded_witness :
    "2026-01-01" ∈ (dailyData mealsE).map (fun r => r.date) ∧ "2026-01-01" ≠ "" :=
  ⟨by decide, (dailyData_empty_date_excluded mealsE).1 "2026-01-01" (by decide)⟩

/-! ## Claim C9 (aggregation purity / idempotence) -/

/-- Claim C9: the aggregation engine (`dailyData`, `exercisesOf`) is pure and
idempotent: refreshing the derived aggregates twice from the same snapshot
equals refreshing once, the input collections are left unmodified, and the
derived fields are exactly the recomputed aggregations of the inputs. -/
theorem aggregation_idempotent (s : Snapshot) :
    refreshAggregates (refreshAggregates s) = refreshAggregates s ∧
    (refreshAggregates s).meals = s.meals ∧
    (refreshAggregates s).training = s.training ∧
    (refreshAggregates s).daily = dailyData s.meals ∧
    (refreshAggregates s).exercises = exercisesOf s.training :=
  ⟨rfl, rfl, rfl, rfl, rfl⟩

/-- A concrete snapshot with stale derived fields. -/
def snap0 : Snapshot :=
  ⟨meals0, [], [⟨"stale", 1, 2⟩], []⟩

theorem aggregation_idempotent_witness :
    refreshAggregates (refreshAggregates snap0) = refreshAggregates snap0 :=
  (aggregation_idempotent snap0).1

/-! ## Claim C3 (bulk-progress pace classification) -/

/-- Claim C3: the pace classifier returns `ahead` exactly when
`pct > timePct + 0.10`, `behind` exactly when `pct < timePct - 0.15`, and
on-track otherwise; for start weight 161, target 170, current 165 and 30 of
75 days elapsed, the completion fraction is 4/9 and the classification is
on-track, not ahead. -/
theorem pace_classification (pct timePct : ℚ) :
    (paceOf pct timePct = Pace.ahead ↔ pct > timePct + 1/10) ∧
    (paceOf pct timePct = Pace.behind ↔ pct < timePct - 3/20) ∧
    (paceOf pct timePct = Pace.onTrack ↔
      (pct ≤ timePct + 1/10 ∧ timePct - 3/20 ≤ pct)) ∧
    bulkPct 165 = 4/9 ∧
    paceOf (bulkPct 165) (30/75) = Pace.onTrack := by
  have hb : bulkPct 165 = 4/9 := by
    have h1 : ((165 : ℚ) - BULK_START_WEIGHT) / (BULK_TARGET_WEIGHT - BULK_START_WEIGHT) = 4/9 := by
      unfold BULK_START_WEIGHT BULK_TARGET_WEIGHT
      norm_num
    unfold bulkPct clamp01
    rw [h1, max_eq_left (by norm_num), min_eq_left (by norm_num)]
  refine ⟨?_, ?_, ?_, hb, ?_⟩
  · unfold paceOf
    by_cases h1 : pct > timePct + 1/10
    · rw [if_pos h1]
      exact ⟨fun _ => h1, fun _ => rfl⟩
    · rw [if_neg h1]
      by_cases h2 : pct < timePct - 3/20
      · rw [if_pos h2]
        exact ⟨(fun h => nomatch h), fun h => absurd h h1⟩
      · rw [if_neg h2]
        exact ⟨(fun h => nomatch h), fun h => absurd h h1⟩
  · unfold paceOf
    by_cases h1 : pct > timePct + 1/10
    · rw [if_pos h1]
      have h2 : ¬ pct < timePct - 3/20 := by linarith
      exact ⟨(fun h => nomatch h), fun h => absurd h h2⟩
    · rw [if_neg h1]
      by_cases h2 : pct < timePct - 3/20
      · rw [if_pos h2]
        exact ⟨fun _ => h2, fun _ => rfl⟩
      · rw [if_neg h2]
        exact ⟨(fun h => nomatch h), fun h => absurd h h2⟩
  · unfold paceOf
    by_cases h1 : pct > timePct + 1/10
    · rw [if_pos h1]
      exact ⟨(fun h => nomatch h), fun h => absurd h1 (not_lt.mpr h.1)⟩
    · rw [if_neg h1]
      by_cases h2 : pct < timePct - 3/20
      · rw [if_pos h2]
        exact ⟨(fun h => nomatch h), fun h => absurd h2 (not_lt.mpr h.2)⟩
      · rw [if_neg h2]
        exact ⟨fun _ => ⟨not_lt.mp h1, not_lt.mp h2⟩, fun _ => rfl⟩
  · rw [hb]
    unfold paceOf
    rw [if_neg (by norm_num), if_neg (by norm_num)]

theorem pace_classification_witness :
    paceOf 1 0 = Pace.ahead ∧ paceOf 0 1 = Pace.behind :=
  ⟨(pace_classification 1 0).1.mpr (by norm_num),
   (pace_classification 0 1).2.1.mpr (by norm_num)⟩

/-! ## Claim C4 (`/api/looksmaxx` failure behaviour) -/

/-- Claim C4 as stated is false on the code: a missing authentication
configuration is a failure of `GET /api/looksmaxx`, yet its response body is
the bare zeroed fallback with no `error` field at all (the handler returns
`res.json(fallback)` before any error is attached). -/
theorem looksmaxx_noToken_counterexample :
    (looksmaxxHandler none "2026-02-17T00:00:00.000Z" (Upstream.ok ([], [], [], []))).1 = 200 ∧
    ¬ ∃ e : String, e ≠ "" ∧
      (looksmaxxHandler none "2026-02-17T00:00:00.000Z"
        (Upstream.ok ([], [], [], []))).2.error = some e := by
  refine ⟨rfl, ?_⟩
  rintro ⟨e, -, hcontra⟩
  exact Option.noConfusion hcontra

/-- Claim C4, amended: every failure of `GET /api/looksmaxx` yields HTTP 200
with the zeroed fallback body; on upstream call failure the body additionally
carries an `error` field holding the thrown error's message (or the string
"looksmaxx_error" for a non-`Error` throw), while on missing authentication
configuration the body carries no `error` field. -/
theorem looksmaxx_failure_fallback (token : Option String) (now : String)
    (u : Upstream (List RawRow × List RawRow × List RawRow × List RawRow)) :
    (jsFalsyStr token = true →
      looksmaxxHandler token now u = (200, looksFallback now none)) ∧
    (∀ m, jsFalsyStr token = false →
      looksmaxxHandler token now (Upstream.fail m) =
        (200, looksFallback now (some (m.getD "looksmaxx_error")))) := by
  constructor
  · intro h
    unfold looksmaxxHandler
    rw [if_pos h]
  · intro m h
    unfold looksmaxxHandler
    rw [if_neg (by simp [h])]

theorem looksmaxx_failure_fallback_witness :
    looksmaxxHandler none "t0" (Upstream.ok ([], [], [], [])) =
      (200, looksFallback "t0" none) ∧
    looksmaxxHandler (some "tok") "t0" (Upstream.fail (some "boom")) =
      (200, looksFallback "t0" (some "boom")) ∧
    (looksFallback "t0" (some "boom")).dailyCount = 0 ∧
    (looksFallback "t0" (some "boom")).latestDaily = [] :=
  ⟨(looksmaxx_failure_fallback none "t0" (Upstream.ok ([], [], [], []))).1 rfl,
   (looksmaxx_failure_fallback (some "tok") "t0"
      (Upstream.fail (some "boom"))).2 (some "boom") rfl,
   rfl, rfl⟩

/-! ## Claim C8 (`/api/dashboard` configuration guard) -/

/-- Claim C8: whenever the auth token or any of the three data-source ids is
unconfigured, `/api/dashboard` answers HTTP 400 with empty meals, bodyComp
and training collections, the current timestamp, and a non-empty error
string. -/
theorem dashboard_config_guard (token : Option String) (dbM dbB dbT : String)
    (now : String) (u : Upstream (List RawRow × List RawRow × List RawRow))
    (h : jsFalsyStr token = true ∨ dbM = "" ∨ dbB = "" ∨ dbT = "") :
    dashboardHandler token dbM dbB dbT now u =
      (400, ⟨[], [], [], now, some dashboardConfigError⟩) ∧
    dashboardConfigError ≠ "" := by
  constructor
  · have hc : (jsFalsyStr token || dbM == "" || dbB == "" || dbT == "") = true := by
      rcases h with h | h | h | h <;> simp [h]
    unfold dashboardHandler
    rw [if_pos hc]
  · decide

theorem dashboard_config_guard_witness :
    dashboardHandler none "" "" "" "t0" (Upstream.ok ([], [], [])) =
      (400, ⟨[], [], [], "t0", some dashboardConfigError⟩) :=
  (dashboard_config_guard none "" "" "" "t0" (Upstream.ok ([], [], [])) (Or.inl rfl)).1

/-! ## Claim C7 (property extraction contract) -/

/-- Claim C7: `firstExisting` returns the value of the first candidate key
that exists in the property map, whatever that value is; when no candidate
key exists it returns undefined, and each typed extractor applied to the
undefined property yields its documented default (empty string for
title/rich-text/date/select, 0 for number) rather than raising. -/
theorem propertyExtraction_contract :
    (∀ (props : List (String × NotionProp)) (ks₁ ks₂ : List String)
        (k : String) (v : NotionProp),
      (∀ k1 ∈ ks₁, props.lookup k1 = none) → props.lookup k = some v →
      firstExisting props (ks₁ ++ k :: ks₂) = some v) ∧
    (∀ (props : List (String × NotionProp)) (keys : List String),
      (∀ k ∈ keys, props.lookup k = none) → firstExisting props keys = none) ∧
    propTitle none = "" ∧ propRichText none = "" ∧ propNumber none = 0 ∧
    propDate none = "" ∧ propSelect none = "" := by
  refine ⟨?_, fun props keys h => firstExisting_eq_none h, rfl, rfl, rfl, rfl, rfl⟩
  intro props ks₁ ks₂ k v hnone hk
  induction ks₁ with
  | nil => exact firstExisting_cons_some ks₂ hk
  | cons a as ih =>
    have ha : props.lookup a = none := hnone a (by simp)
    have has : ∀ k1 ∈ as, props.lookup k1 = none :=
      fun k1 hk1 => hnone k1 (List.mem_cons_of_mem _ hk1)
    have step : firstExisting props ((a :: as) ++ k :: ks₂) =
        firstExisting props (as ++ k :: ks₂) := by
      simp only [List.cons_append, firstExisting, List.findSome?_cons, ha]
    rw [step]
    exact ih has

/-- A property map holding only a select-typed "Meal" property. -/
def wProp : NotionProp := { select := some "Breakfast" }

theorem propertyExtraction_contract_witness :
    firstExisting [("Meal", wProp)] (["Food"] ++ "Meal" :: ["Title"]) = some wProp ∧
    firstExisting [("Meal", wProp)] ["Calories", "kcal"] = none := by
  constructor
  · exact propertyExtraction_contract.1 [("Meal", wProp)] ["Food"] ["Title"] "Meal" wProp
      (by intro k1 hk1; simp at hk1; subst hk1; rfl) rfl
  · refine propertyExtraction_contract.2.1 [("Meal", wProp)] ["Calories", "kcal"] ?_
    intro k hk
    rcases List.mem_cons.mp hk with h | h
    · subst h; rfl
    · have : k = "kcal" := by simpa using h
      subst this; rfl

/-! ## Claim C6 (meal mapper zero semantics) -/

/-- Claim C6: a meal record whose "Calories" field exists with numeric value
0 maps to calories = 0 (the zero is not replaced by a default), and the
optional carbs/fat fields are null exactly when the extracted number is
falsy (0 or absent); in particular with no Carbs candidate field present,
carbs = null. -/
theorem mealMapper_zero_semantics (props : List (String × NotionProp)) (pr : NotionProp) :
    (props.lookup "Calories" = some pr → pr.number = some 0 →
      (mapMeal props).calories = 0) ∧
    ((∀ k ∈ (["Carbs", "Carbs (g)"] : List String), props.lookup k = none) →
      (mapMeal props).carbs = none) ∧
    ((mapMeal props).carbs = none ↔
      propNumber (firstExisting props ["Carbs", "Carbs (g)"]) = 0) ∧
    ((mapMeal props).fat = none ↔
      propNumber (firstExisting props ["Fat", "Fat (g)"]) = 0) := by
  refine ⟨?_, ?_, ?_, ?_⟩
  · intro h1 h2
    show propNumber (firstExisting props ["Calories", "kcal"]) = 0
    rw [firstExisting_cons_some _ h1]
    simp [propNumber, h2]
  · intro h
    show numOrNull (propNumber (firstExisting props ["Carbs", "Carbs (g)"])) = none
    rw [firstExisting_eq_none h]
    rfl
  · exact numOrNull_eq_none_iff _
  · exact numOrNull_eq_none_iff _

/-- A meal record whose only property is a "Calories" field valued 0. -/
def mealProps0 : List (String × NotionProp) := [("Calories", { number := some 0 })]

theorem mealMapper_zero_semantics_witness :
    (mapMeal mealProps0).calories = 0 ∧ (mapMeal mealProps0).carbs = none := by
  refine ⟨(mealMapper_zero_semantics mealProps0 { number := some 0 }).1 rfl rfl, ?_⟩
  refine (mealMapper_zero_semantics mealProps0 { number := some 0 }).2.1 ?_
  intro k hk
  rcases List.mem_cons.mp hk with h | h
  · subst h; rfl
  · have : k = "Carbs (g)" := by simpa using h
    subst this; rfl

/-! ## Claim C5 (roadmap next-milestones slice) -/

/-- Claim C5: the next-milestones slice consists exactly of the items whose
date is empty or at least today's ISO date, in ascending date-string order
(empty dates first, as they compare lowest), truncated to the first 8: every
slice member qualifies, the slice is ascending, its length is the qualifying
count capped at 8, and when at most 8 items qualify every qualifying item's
projection is in the slice. -/
theorem nextMilestones_correct (rows : List RawRow) (today : String) :
    (∀ x ∈ nextMilestones rows today, x.date = "" ∨ jsLe today x.date = true) ∧
    (nextMilestones rows today).Pairwise (fun a b => jsLe a.date b.date = true) ∧
    (nextMilestones rows today).length =
      min 8 ((roadmapItems rows).filter (milestoneKeep today)).length ∧
    (((roadmapItems rows).filter (milestoneKeep today)).length ≤ 8 →
      ∀ i ∈ roadmapItems rows, milestoneKeep today i = true →
        (⟨i.milestone, i.date, i.phase⟩ : MilestoneSlice) ∈ nextMilestones rows today) := by
  refine ⟨?_, ?_, ?_, ?_⟩
  · intro x hx
    rcases List.mem_map.mp hx with ⟨i, hi, hxi⟩
    have hfil : i ∈ (roadmapItems rows).filter (milestoneKeep today) :=
      List.mem_of_mem_take hi
    have hkeep : milestoneKeep today i = true := (List.mem_filter.mp hfil).2
    rw [milestoneKeep, Bool.or_eq_true, beq_iff_eq] at hkeep
    rw [← hxi]
    exact hkeep
  · have hs : (roadmapItems rows).Pairwise itemLe := List.sorted_insertionSort itemLe _
    have htake : (((roadmapItems rows).filter (milestoneKeep today)).take 8).Pairwise itemLe :=
      (hs.filter _).take
    exact List.pairwise_map.mpr (htake.imp (fun h => h))
  · unfold nextMilestones
    rw [List.length_map, List.length_take]
  · intro hlen i hi hkeep
    have hfil : i ∈ (roadmapItems rows).filter (milestoneKeep today) :=
      List.mem_filter.mpr ⟨hi, hkeep⟩
    unfold nextMilestones
    rw [List.take_of_length_le hlen]
    exact List.mem_map_of_mem _ hfil

/-- A raw roadmap row dated 2026-01-01 (past relative to the fixed today). -/
def roadRow1 : RawRow := ⟨some [("Date", { date := some "2026-01-01" })]⟩

/-- A raw roadmap row dated 2026-12-01 (future relative to the fixed today). -/
def roadRow2 : RawRow := ⟨some [("Date", { date := some "2026-12-01" })]⟩

theorem nextMilestones_correct_witness :
    ((⟨"Untitled", "2026-12-01", ""⟩ : MilestoneSlice) ∈
      nextMilestones [roadRow1, roadRow2] "2026-06-01") ∧
    ((⟨"Untitled", "2026-01-01", ""⟩ : MilestoneSlice) ∉
      nextMilestones [roadRow1, roadRow2] "2026-06-01") := by
  constructor
  · have hi : mapRoadmap (rowProps roadRow2) ∈ roadmapItems [roadRow1, roadRow2] := by
      rw [roadmapItems, (List.perm_insertionSort itemLe _).mem_iff]
      simp
    exact (nextMilestones_correct [roadRow1, roadRow2] "2026-06-01").2.2.2
      (by decide) (mapRoadmap (rowProps roadRow2)) hi (by decide)
  · decide
